import Mathlib

/-!
Verification of the wizalloc storage-engine snapshot surface and host bindings.

The development shallowly embeds the TypeScript snapshot decoders
(`src/frontend/src/lib/wasm/engine.ts`), the JS wasm bindings
(`src/wasm-engine/pkg/wizalloc_engine.js`), and the row-id handling of the
frontend stores.  Byte strings are `List Nat` (one entry per byte, values
below 256); JavaScript `DataView` reads past the end of the buffer throw, so
every reader returns `Option`.  The engine-side snapshot emitters live in the
wasm binary whose source is not part of the repository; where a claim needs
them they are modelled from the specification (doc comments say so).
-/

namespace Wizalloc

/-- Byte strings: one `Nat` per byte, little-endian fields. -/
abbrev Bytes := List Nat

/-- Little-endian encoding of an unsigned 8-bit value. -/
def u8le (n : Nat) : Bytes := [n % 256]

/-- Little-endian encoding of an unsigned 16-bit value. -/
def u16le (n : Nat) : Bytes := [n % 256, n / 256 % 256]

/-- Little-endian encoding of an unsigned 32-bit value. -/
def u32le (n : Nat) : Bytes :=
  [n % 256, n / 256 % 256, n / 65536 % 256, n / 16777216 % 256]

/-- Little-endian encoding of an unsigned 64-bit value as two 32-bit halves. -/
def u64le (n : Nat) : Bytes := u32le n ++ u32le (n / 4294967296)

/-- Reader for `BinaryReader.u8`: one byte, advancing the stream. -/
def rdU8 : Bytes → Option (Nat × Bytes)
  | [] => none
  | b :: r => some (b, r)

/-- Reader for `BinaryReader.u16` (`getUint16` little-endian). -/
def rdU16 : Bytes → Option (Nat × Bytes)
  | b0 :: b1 :: r => some (b0 + 256 * b1, r)
  | _ => none

/-- Reader for `BinaryReader.u32` (`getUint32` little-endian). -/
def rdU32 : Bytes → Option (Nat × Bytes)
  | b0 :: b1 :: b2 :: b3 :: r =>
      some (b0 + 256 * b1 + 65536 * b2 + 16777216 * b3, r)
  | _ => none

/-- Reader for `BinaryReader.u64`: two little-endian `u32` reads combined as
`lo + 2^32 * hi`.  The source computes this with exact `BigInt` arithmetic. -/
def rdU64 (bs : Bytes) : Option (Nat × Bytes) :=
  match rdU32 bs with
  | some (lo, bs1) =>
    match rdU32 bs1 with
    | some (hi, bs2) => some (lo + 4294967296 * hi, bs2)
    | none => none
  | none => none

/-- Reader for `BinaryReader.bytes(n)`: `n` raw bytes. -/
def rdBytes : Nat → Bytes → Option (Bytes × Bytes)
  | 0, bs => some ([], bs)
  | _ + 1, [] => none
  | n + 1, b :: bs =>
    match rdBytes n bs with
    | some (chunk, rest) => some (b :: chunk, rest)
    | none => none

/-- Run a record reader `n` times, collecting the results in order.  This is
the embedding of the decoders' counted `for` loops. -/
def rdList (rd : Bytes → Option (α × Bytes)) : Nat → Bytes → Option (List α × Bytes)
  | 0, bs => some ([], bs)
  | n + 1, bs =>
    match rd bs with
    | some (a, bs1) =>
      match rdList rd n bs1 with
      | some (as, bs2) => some (a :: as, bs2)
      | none => none
    | none => none

/-! Round-trip laws for the primitive readers. -/

theorem rdU8_u8le (n : Nat) (r : Bytes) : rdU8 (u8le n ++ r) = some (n % 256, r) := rfl

theorem rdU16_u16le (n : Nat) (r : Bytes) :
    rdU16 (u16le n ++ r) = some (n % 65536, r) := by
  have h : n % 256 + 256 * (n / 256 % 256) = n % 65536 := by omega
  simp [u16le, rdU16, h]

theorem rdU32_u32le (n : Nat) (r : Bytes) :
    rdU32 (u32le n ++ r) = some (n % 4294967296, r) := by
  have h : n % 256 + 256 * (n / 256 % 256) + 65536 * (n / 65536 % 256)
      + 16777216 * (n / 16777216 % 256) = n % 4294967296 := by omega
  simp [u32le, rdU32, h]

theorem rdU64_u64le (n : Nat) (r : Bytes) (hn : n < 18446744073709551616) :
    rdU64 (u64le n ++ r) = some (n, r) := by
  have h32 : n / 4294967296 < 4294967296 := by omega
  simp only [u64le, List.append_assoc, rdU64, rdU32_u32le]
  have h : n % 4294967296 + 4294967296 * (n / 4294967296 % 4294967296) = n := by omega
  simp [h]

theorem rdBytes_append (l r : Bytes) : rdBytes l.length (l ++ r) = some (l, r) := by
  induction l with
  | nil => rfl
  | cons b bs ih => simp [rdBytes, ih]

theorem rdList_append {α : Type} (rd : Bytes → Option (α × Bytes)) (enc : α → Bytes)
    (l : List α) (r : Bytes)
    (h : ∀ a ∈ l, ∀ s : Bytes, rd (enc a ++ s) = some (a, s)) :
    rdList rd l.length ((l.map enc).flatten ++ r) = some (l, r) := by
  induction l with
  | nil => rfl
  | cons a as ih =>
    have ha := h a (List.mem_cons_self a as)
    have ih' := ih (fun x hx s => h x (List.mem_cons_of_mem a hx) s)
    simp only [List.map_cons, List.flatten_cons, List.length_cons, List.append_assoc,
      rdList, ha, ih']

/-! The slotted-page snapshot (`decodePage` in `engine.ts`). -/

/-- Slot-directory entry as decoded by `decodePage`. -/
structure SlotInfo where
  offset : Nat
  length : Nat
deriving DecidableEq

/-- The structure `decodePage` produces (`PageSnapshot` in `engine.ts`). -/
structure PageSnapshot where
  pageSize : Nat
  pageId : Nat
  pageType : Nat
  slotCount : Nat
  freeStart : Nat
  freeEnd : Nat
  nextPageId : Nat
  freeSpace : Nat
  slots : List SlotInfo
  rawBytes : Bytes
deriving DecidableEq

/-- Reader for one slot record: `{ offset: r.u16(), length: r.u16() }`. -/
def rdSlot (bs : Bytes) : Option (SlotInfo × Bytes) :=
  match rdU16 bs with
  | some (off, bs1) =>
    match rdU16 bs1 with
    | some (len, bs2) => some ({ offset := off, length := len }, bs2)
    | none => none
  | none => none

/-- Embedding of `decodePage` from `engine.ts`: u32 page_size, u32 page_id,
u8 page_type, u16 slot_count, u16 free_start, u16 free_end, u32 next_page_id,
u16 free_space, u16 num_slots, num_slots slot records, then page_size raw
bytes, all little-endian.  Trailing bytes are ignored, as in the source. -/
def decodePage (bs : Bytes) : Option PageSnapshot :=
  match rdU32 bs with
  | none => none
  | some (pageSize, bs) =>
  match rdU32 bs with
  | none => none
  | some (pageId, bs) =>
  match rdU8 bs with
  | none => none
  | some (pageType, bs) =>
  match rdU16 bs with
  | none => none
  | some (slotCount, bs) =>
  match rdU16 bs with
  | none => none
  | some (freeStart, bs) =>
  match rdU16 bs with
  | none => none
  | some (freeEnd, bs) =>
  match rdU32 bs with
  | none => none
  | some (nextPageId, bs) =>
  match rdU16 bs with
  | none => none
  | some (freeSpace, bs) =>
  match rdU16 bs with
  | none => none
  | some (numSlots, bs) =>
  match rdList rdSlot numSlots bs with
  | none => none
  | some (slots, bs) =>
  match rdBytes pageSize bs with
  | none => none
  | some (rawBytes, _) =>
    some { pageSize := pageSize, pageId := pageId, pageType := pageType,
           slotCount := slotCount, freeStart := freeStart, freeEnd := freeEnd,
           nextPageId := nextPageId, freeSpace := freeSpace,
           slots := slots, rawBytes := rawBytes }

/-- Encoding of one slot record of the Page snapshot layout. -/
def encSlot (s : SlotInfo) : Bytes := u16le s.offset ++ u16le s.length

/-- Modelled from the spec: the engine-side Page snapshot emitter (the wasm
binary, absent from the sources) serializes, little-endian, `u32 page_size,
u32 page_id, u8 page_type, u16 slot_count, u16 free_start, u16 free_end,
u32 next_page_id, u16 free_space, u16 num_slots_for_view,
num_slots × {u16 offset, u16 length}, page_size bytes raw`, with
`num_slots_for_view == slot_count` (spec section 4.6, item 3). -/
def encodePage (p : PageSnapshot) : Bytes :=
  u32le p.pageSize ++ u32le p.pageId ++ u8le p.pageType ++ u16le p.slotCount ++
  u16le p.freeStart ++ u16le p.freeEnd ++ u32le p.nextPageId ++ u16le p.freeSpace ++
  u16le p.slotCount ++ (p.slots.map encSlot).flatten ++ p.rawBytes

/-- Well-formedness of a page snapshot value: every field fits its wire
width, the slot directory has exactly `slot_count` entries, and the raw dump
has exactly `page_size` bytes. -/
def PageSnapshot.WF (p : PageSnapshot) : Prop :=
  p.pageSize < 4294967296 ∧ p.pageId < 4294967296 ∧ p.pageType < 256 ∧
  p.slotCount < 65536 ∧ p.freeStart < 65536 ∧ p.freeEnd < 65536 ∧
  p.nextPageId < 4294967296 ∧ p.freeSpace < 65536 ∧
  p.slots.length = p.slotCount ∧
  (∀ s ∈ p.slots, s.offset < 65536 ∧ s.length < 65536) ∧
  p.rawBytes.length = p.pageSize ∧ (∀ b ∈ p.rawBytes, b < 256)

instance (p : PageSnapshot) : Decidable p.WF := by
  unfold PageSnapshot.WF; infer_instance

theorem rdSlot_encSlot (s : SlotInfo) (h : s.offset < 65536 ∧ s.length < 65536)
    (r : Bytes) : rdSlot (encSlot s ++ r) = some (s, r) := by
  obtain ⟨h1, h2⟩ := h
  simp only [encSlot, List.append_assoc, rdSlot, rdU16_u16le,
    Nat.mod_eq_of_lt h1, Nat.mod_eq_of_lt h2]

/-- Helper: decoding the emitted page layout recovers every field. -/
theorem decodePage_encodePage_aux (p : PageSnapshot) (h : p.WF) (extra : Bytes) :
    decodePage (encodePage p ++ extra) = some p := by
  obtain ⟨h1, h2, h3, h4, h5, h6, h7, h8, h9, h10, h11, _⟩ := h
  have hslots : ∀ s ∈ p.slots, ∀ r : Bytes, rdSlot (encSlot s ++ r) = some (s, r) :=
    fun s hs r => rdSlot_encSlot s (h10 s hs) r
  have hsl : rdList rdSlot p.slotCount
      ((p.slots.map encSlot).flatten ++ (p.rawBytes ++ extra))
      = some (p.slots, p.rawBytes ++ extra) := by
    rw [← h9]; exact rdList_append rdSlot encSlot p.slots _ hslots
  have hraw : rdBytes p.pageSize (p.rawBytes ++ extra) = some (p.rawBytes, extra) := by
    rw [← h11]; exact rdBytes_append p.rawBytes extra
  simp only [encodePage, List.append_assoc, decodePage, rdU32_u32le, rdU16_u16le,
    rdU8_u8le, Nat.mod_eq_of_lt h1, Nat.mod_eq_of_lt h2, Nat.mod_eq_of_lt h3,
    Nat.mod_eq_of_lt h4, Nat.mod_eq_of_lt h5, Nat.mod_eq_of_lt h6,
    Nat.mod_eq_of_lt h7, Nat.mod_eq_of_lt h8, hsl, hraw]

/-- C1: `decodePage` reads, little-endian and in this exact order with no
gaps, u32 page_size, u32 page_id, u8 page_type, u16 slot_count,
u16 free_start, u16 free_end, u32 next_page_id, u16 free_space,
u16 num_slots_for_view, that many slot records of {u16 offset, u16 length},
then exactly page_size raw bytes; the emitter (modelled from the spec)
writes `num_slots_for_view = slot_count`, so the decoded slots array has
`slot_count` entries.  Decoding is independent of any trailing bytes. -/
theorem decodePage_layout (p : PageSnapshot) (h : p.WF) (extra : Bytes) :
    decodePage (encodePage p ++ extra) = some p ∧
    ∀ q : PageSnapshot, decodePage (encodePage p ++ extra) = some q →
      q.slots.length = p.slotCount :=
  ⟨decodePage_encodePage_aux p h extra,
   fun q hq => by
     rw [decodePage_encodePage_aux p h extra] at hq
     cases hq
     exact h.2.2.2.2.2.2.2.2.1⟩

/-- Concrete page snapshot used by the C1 witness. -/
def pageEx : PageSnapshot :=
  { pageSize := 3, pageId := 1, pageType := 0, slotCount := 2, freeStart := 24,
    freeEnd := 30, nextPageId := 4294967295, freeSpace := 6,
    slots := [{ offset := 30, length := 5 }, { offset := 35, length := 0 }],
    rawBytes := [7, 9, 255] }

/-- Witness for C1 at a concrete page snapshot with trailing garbage. -/
theorem decodePage_layout_witness :
    decodePage (encodePage pageEx ++ [1, 2]) = some pageEx ∧
    ∀ q : PageSnapshot, decodePage (encodePage pageEx ++ [1, 2]) = some q →
      q.slots.length = pageEx.slotCount :=
  decodePage_layout pageEx (by decide) [1, 2]

/-! The buffer-pool snapshot (`decodeBufferPool` in `engine.ts`). -/

/-- Sentinel for "no page" (`export const INVALID_PAGE = 0xFFFFFFFF` in
`engine.ts`). -/
def INVALID_PAGE : Nat := 0xFFFFFFFF

/-- One frame as decoded by `decodeBufferPool` (`FrameInfo` in `engine.ts`):
`pageId` is `none` when the wire value is the sentinel. -/
structure FrameInfo where
  pageId : Option Nat
  pinCount : Nat
  isDirty : Bool
  isOccupied : Bool
deriving DecidableEq

/-- The structure `decodeBufferPool` produces.  The JS `Map` page table is
embedded as its association list in insertion order, and the four `u64`
counters as exact naturals: the source converts them with `Number(...)`,
which is exact below `2^53`, and every theorem below stays in that range. -/
structure BufferPoolSnapshot where
  poolSize : Nat
  pageSize : Nat
  frames : List FrameInfo
  pageTable : List (Nat × Nat)
  lruOrder : List Nat
  hitCount : Nat
  missCount : Nat
  diskReadCount : Nat
  diskWriteCount : Nat
  diskNumAllocated : Nat
  diskMaxPages : Nat
  diskBasePtr : Nat
deriving DecidableEq

/-- Embedding of `Map.set` of the JS page table: overwrite in place when the
key is present, append otherwise (JS maps iterate in insertion order). -/
def mapSet (m : List (Nat × Nat)) (k v : Nat) : List (Nat × Nat) :=
  if m.any (fun kv => kv.1 = k) then
    m.map (fun kv => if kv.1 = k then (k, v) else kv)
  else m ++ [(k, v)]

/-- Reader for one frame record: u32 page id (sentinel mapped to `none`),
u32 pin count, u8 dirty flag, u8 occupied flag. -/
def rdFrame (bs : Bytes) : Option (FrameInfo × Bytes) :=
  match rdU32 bs with
  | none => none
  | some (pid, bs) =>
  match rdU32 bs with
  | none => none
  | some (pin, bs) =>
  match rdU8 bs with
  | none => none
  | some (d, bs) =>
  match rdU8 bs with
  | none => none
  | some (o, bs) =>
    some ({ pageId := if pid = INVALID_PAGE then none else some pid,
            pinCount := pin, isDirty := d != 0, isOccupied := o != 0 }, bs)

/-- Reader for one page-table pair `(u32 pid, u32 fid)`. -/
def rdPair (bs : Bytes) : Option ((Nat × Nat) × Bytes) :=
  match rdU32 bs with
  | none => none
  | some (pid, bs) =>
  match rdU32 bs with
  | none => none
  | some (fid, bs) => some ((pid, fid), bs)

/-- Embedding of `decodeBufferPool` from `engine.ts`: u32 pool_size,
u32 page_size, pool_size frame records, u32 page_table_len and that many
(pid, fid) pairs inserted into a map, u32 lru_len and that many u32 frame
ids, the four u64 counters, then u32 disk_num_allocated, u32 disk_max_pages,
u32 disk_base_ptr, all little-endian. -/
def decodeBufferPool (bs : Bytes) : Option BufferPoolSnapshot :=
  match rdU32 bs with
  | none => none
  | some (poolSize, bs) =>
  match rdU32 bs with
  | none => none
  | some (pageSize, bs) =>
  match rdList rdFrame poolSize bs with
  | none => none
  | some (frames, bs) =>
  match rdU32 bs with
  | none => none
  | some (ptLen, bs) =>
  match rdList rdPair ptLen bs with
  | none => none
  | some (ptPairs, bs) =>
  match rdU32 bs with
  | none => none
  | some (lruLen, bs) =>
  match rdList rdU32 lruLen bs with
  | none => none
  | some (lruOrder, bs) =>
  match rdU64 bs with
  | none => none
  | some (hits, bs) =>
  match rdU64 bs with
  | none => none
  | some (misses, bs) =>
  match rdU64 bs with
  | none => none
  | some (reads, bs) =>
  match rdU64 bs with
  | none => none
  | some (writes, bs) =>
  match rdU32 bs with
  | none => none
  | some (numAlloc, bs) =>
  match rdU32 bs with
  | none => none
  | some (maxPages, bs) =>
  match rdU32 bs with
  | none => none
  | some (basePtr, _) =>
    some { poolSize := poolSize, pageSize := pageSize, frames := frames,
           pageTable := ptPairs.foldl (fun m kv => mapSet m kv.1 kv.2) [],
           lruOrder := lruOrder, hitCount := hits, missCount := misses,
           diskReadCount := reads, diskWriteCount := writes,
           diskNumAllocated := numAlloc, diskMaxPages := maxPages,
           diskBasePtr := basePtr }

/-- Encoding of one frame record; an empty frame carries the sentinel. -/
def encFrame (f : FrameInfo) : Bytes :=
  u32le (f.pageId.getD INVALID_PAGE) ++ u32le f.pinCount ++
  u8le (if f.isDirty then 1 else 0) ++ u8le (if f.isOccupied then 1 else 0)

/-- Encoding of one page-table pair. -/
def encPair (kv : Nat × Nat) : Bytes := u32le kv.1 ++ u32le kv.2

/-- Modelled from the spec: the engine-side BufferPool snapshot emitter (in
the wasm binary, absent from the sources) serializes, little-endian,
`u32 pool_size, u32 page_size, pool_size × {u32 page_id|SENTINEL,
u32 pin_count, u8 is_dirty, u8 is_occupied}, u32 page_table_len,
page_table_len × (u32 pid, u32 fid), u32 lru_len, lru_len × u32 frame_id,
u64 hits, u64 misses, u64 disk_reads, u64 disk_writes,
u32 disk_num_allocated, u32 disk_max_pages, u32 disk_base_ptr`
(spec section 4.6, item 1). -/
def encodeBufferPool (b : BufferPoolSnapshot) : Bytes :=
  u32le b.poolSize ++ u32le b.pageSize ++ (b.frames.map encFrame).flatten ++
  u32le b.pageTable.length ++ (b.pageTable.map encPair).flatten ++
  u32le b.lruOrder.length ++ (b.lruOrder.map u32le).flatten ++
  u64le b.hitCount ++ u64le b.missCount ++ u64le b.diskReadCount ++
  u64le b.diskWriteCount ++
  u32le b.diskNumAllocated ++ u32le b.diskMaxPages ++ u32le b.diskBasePtr

/-- Well-formedness of a buffer-pool snapshot: every field fits its wire
width, occupied page ids are below the sentinel, the frame list has
`pool_size` entries, page-table keys are distinct (a page resides in at most
one frame), and the counters are below `2^53` so that the source's
`Number(...)` conversion is exact. -/
def BufferPoolSnapshot.WF (b : BufferPoolSnapshot) : Prop :=
  b.poolSize < 4294967296 ∧ b.pageSize < 4294967296 ∧
  b.frames.length = b.poolSize ∧
  (∀ f ∈ b.frames, (∀ pid, f.pageId = some pid → pid < INVALID_PAGE) ∧
    f.pinCount < 4294967296) ∧
  b.pageTable.length < 4294967296 ∧
  (∀ kv ∈ b.pageTable, kv.1 < 4294967296 ∧ kv.2 < 4294967296) ∧
  (b.pageTable.map Prod.fst).Nodup ∧
  b.lruOrder.length < 4294967296 ∧ (∀ fid ∈ b.lruOrder, fid < 4294967296) ∧
  b.hitCount < 9007199254740992 ∧ b.missCount < 9007199254740992 ∧
  b.diskReadCount < 9007199254740992 ∧ b.diskWriteCount < 9007199254740992 ∧
  b.diskNumAllocated < 4294967296 ∧ b.diskMaxPages < 4294967296 ∧
  b.diskBasePtr < 4294967296

instance (b : BufferPoolSnapshot) : Decidable b.WF := by
  unfold BufferPoolSnapshot.WF; infer_instance

theorem rdFrame_encFrame (f : FrameInfo)
    (h : (∀ pid, f.pageId = some pid → pid < INVALID_PAGE) ∧
      f.pinCount < 4294967296)
    (r : Bytes) : rdFrame (encFrame f ++ r) = some (f, r) := by
  obtain ⟨hpid, hpin⟩ := h
  have hb : ∀ b : Bool, ((if b then 1 else 0) % 256 != 0) = b := by decide
  obtain ⟨fpid, fpin, fd, fo⟩ := f
  simp only at hpin
  cases fpid with
  | none =>
    have hs : (INVALID_PAGE : Nat) < 4294967296 := by decide
    simp only [encFrame, Option.getD, List.append_assoc, rdFrame, rdU32_u32le,
      rdU8_u8le, Nat.mod_eq_of_lt hs, Nat.mod_eq_of_lt hpin, hb]
    simp
  | some pid =>
    have hlt : pid < INVALID_PAGE := hpid pid rfl
    have hlt' : pid < 4294967296 := by
      have : (INVALID_PAGE : Nat) < 4294967296 := by decide
      omega
    simp only [encFrame, Option.getD, List.append_assoc, rdFrame, rdU32_u32le,
      rdU8_u8le, Nat.mod_eq_of_lt hlt', Nat.mod_eq_of_lt hpin, hb]
    simp [Nat.ne_of_lt hlt]

theorem rdPair_encPair (kv : Nat × Nat)
    (h : kv.1 < 4294967296 ∧ kv.2 < 4294967296) (r : Bytes) :
    rdPair (encPair kv ++ r) = some (kv, r) := by
  obtain ⟨h1, h2⟩ := h
  simp only [encPair, List.append_assoc, rdPair, rdU32_u32le,
    Nat.mod_eq_of_lt h1, Nat.mod_eq_of_lt h2]

/-- Rebuilding a JS map from pairs with distinct keys reproduces the pairs in
order. -/
theorem foldl_mapSet (l acc : List (Nat × Nat))
    (hdisj : ∀ kv ∈ acc, ∀ kv' ∈ l, kv.1 ≠ kv'.1)
    (hnd : (l.map Prod.fst).Nodup) :
    l.foldl (fun m kv => mapSet m kv.1 kv.2) acc = acc ++ l := by
  induction l generalizing acc with
  | nil => simp
  | cons kv rest ih =>
    have hnotin : acc.any (fun x => x.1 = kv.1) = false := by
      simp only [List.any_eq_false, decide_eq_true_eq]
      intro x hx
      exact hdisj x hx kv (List.mem_cons_self kv rest)
    have hstep : mapSet acc kv.1 kv.2 = acc ++ [(kv.1, kv.2)] := by
      rw [mapSet, hnotin]; simp
    simp only [List.foldl_cons, hstep]
    have hnd2 : kv.1 ∉ rest.map Prod.fst ∧ (rest.map Prod.fst).Nodup := by
      rw [List.map_cons] at hnd
      exact List.nodup_cons.mp hnd
    have hdisj' : ∀ x ∈ acc ++ [(kv.1, kv.2)], ∀ kv' ∈ rest, x.1 ≠ kv'.1 := by
      intro x hx kv' hkv'
      rcases List.mem_append.mp hx with hxa | hxk
      · exact hdisj x hxa kv' (List.mem_cons_of_mem kv hkv')
      · have hx2 : x = (kv.1, kv.2) := by simpa using hxk
        subst hx2
        intro hcontra
        apply hnd2.1
        have : kv'.1 ∈ rest.map Prod.fst := List.mem_map_of_mem Prod.fst hkv'
        simpa [← hcontra] using this
    rw [ih (acc ++ [(kv.1, kv.2)]) hdisj' hnd2.2]
    simp

/-- Helper: decoding the emitted buffer-pool layout recovers every field. -/
theorem decodeBufferPool_encodeBufferPool_aux (b : BufferPoolSnapshot)
    (h : b.WF) (extra : Bytes) :
    decodeBufferPool (encodeBufferPool b ++ extra) = some b := by
  obtain ⟨h1, h2, h3, h4, h5, h6, h7, h8, h9, h10, h11, h12, h13, h14, h15, h16⟩ := h
  have hframes : ∀ r : Bytes, rdList rdFrame b.poolSize
      ((b.frames.map encFrame).flatten ++ r) = some (b.frames, r) := by
    intro r
    rw [← h3]
    exact rdList_append rdFrame encFrame b.frames r
      (fun f hf s => rdFrame_encFrame f (h4 f hf) s)
  have hpairs : ∀ r : Bytes, rdList rdPair b.pageTable.length
      ((b.pageTable.map encPair).flatten ++ r) = some (b.pageTable, r) :=
    fun r => rdList_append rdPair encPair b.pageTable r
      (fun kv hkv s => rdPair_encPair kv (h6 kv hkv) s)
  have hlru : ∀ r : Bytes, rdList rdU32 b.lruOrder.length
      ((b.lruOrder.map u32le).flatten ++ r) = some (b.lruOrder, r) :=
    fun r => rdList_append rdU32 u32le b.lruOrder r
      (fun fid hfid s => by
        rw [rdU32_u32le, Nat.mod_eq_of_lt (h9 fid hfid)])
  have hfold : b.pageTable.foldl (fun m kv => mapSet m kv.1 kv.2) []
      = b.pageTable := by
    have := foldl_mapSet b.pageTable [] (by simp) h7
    simpa using this
  have e53 : (9007199254740992 : Nat) < 18446744073709551616 := by norm_num
  simp only [encodeBufferPool, List.append_assoc, decodeBufferPool, rdU32_u32le,
    Nat.mod_eq_of_lt h1, Nat.mod_eq_of_lt h2, hframes, Nat.mod_eq_of_lt h5,
    hpairs, Nat.mod_eq_of_lt h8, hlru,
    rdU64_u64le _ _ (lt_trans h10 e53), rdU64_u64le _ _ (lt_trans h11 e53),
    rdU64_u64le _ _ (lt_trans h12 e53), rdU64_u64le _ _ (lt_trans h13 e53),
    Nat.mod_eq_of_lt h14, Nat.mod_eq_of_lt h15, Nat.mod_eq_of_lt h16, hfold]

/-- C2: `decodeBufferPool` reads, little-endian and in this exact order,
u32 pool_size, u32 page_size, pool_size frame records of 10 bytes
{u32 page_id, u32 pin_count, u8 is_dirty, u8 is_occupied}, u32
page_table_len and that many (u32 pid, u32 fid) pairs, u32 lru_len and that
many u32 frame ids, the four u64 counters hits, misses, disk_reads,
disk_writes, then u32 disk_num_allocated, u32 disk_max_pages,
u32 disk_base_ptr; decoding the emitted layout recovers every field and is
independent of trailing bytes. -/
theorem decodeBufferPool_layout (b : BufferPoolSnapshot) (h : b.WF)
    (extra : Bytes) :
    decodeBufferPool (encodeBufferPool b ++ extra) = some b ∧
    (encFrame { pageId := some 7, pinCount := 2, isDirty := true,
                isOccupied := true }).length = 10 :=
  ⟨decodeBufferPool_encodeBufferPool_aux b h extra, rfl⟩

/-- Concrete buffer-pool snapshot used by the C2 witness. -/
def bpEx : BufferPoolSnapshot :=
  { poolSize := 2, pageSize := 64,
    frames := [{ pageId := some 3, pinCount := 1, isDirty := true, isOccupied := true },
               { pageId := none, pinCount := 0, isDirty := false, isOccupied := false }],
    pageTable := [(3, 0)], lruOrder := [1],
    hitCount := 5, missCount := 4, diskReadCount := 4, diskWriteCount := 2,
    diskNumAllocated := 3, diskMaxPages := 16, diskBasePtr := 0 }

/-- Witness for C2 at a concrete buffer-pool snapshot. -/
theorem decodeBufferPool_layout_witness :
    decodeBufferPool (encodeBufferPool bpEx ++ [0]) = some bpEx ∧
    (encFrame { pageId := some 7, pinCount := 2, isDirty := true,
                isOccupied := true }).length = 10 :=
  decodeBufferPool_layout bpEx (by decide) [0]

/-! The "no page" sentinel. -/

/-- Embedding of the next-pointer caption in `PageInspectorCanvas.tsx`:
`snap.nextPageId === INVALID_PAGE ? 'NULL' : 'Pg ' + snap.nextPageId`. -/
def nextLabel (next : Nat) : String :=
  if next = INVALID_PAGE then "NULL" else "Pg " ++ toString next

/-- The next-pointer caption reads NULL exactly at the sentinel. -/
theorem nextLabel_null_iff (n : Nat) : nextLabel n = "NULL" ↔ n = INVALID_PAGE := by
  constructor
  · intro h
    by_contra hne
    rw [nextLabel, if_neg hne] at h
    have hd := congrArg String.data h
    rw [String.data_append] at hd
    rw [show "Pg ".data = ['P', 'g', ' '] from rfl] at hd
    have hh := congrArg List.head? hd
    simp at hh
  · intro h; simp [nextLabel, h]

/-- C5: the all-ones 32-bit value 0xFFFFFFFF is the reserved no-page
sentinel at the snapshot interface: `INVALID_PAGE` equals `2^32 - 1`, a
decoded frame's pageId is `none` exactly when the encoded u32 page id equals
the sentinel, and the next-page caption shows end-of-chain (NULL) exactly at
the sentinel. -/
theorem invalid_page_sentinel (pid pin d o : Nat) (r : Bytes)
    (hpid : pid < 4294967296) (hpin : pin < 4294967296)
    (hd : d < 256) (ho : o < 256) :
    INVALID_PAGE = 2 ^ 32 - 1 ∧
    rdFrame (u32le pid ++ u32le pin ++ u8le d ++ u8le o ++ r)
      = some ({ pageId := if pid = INVALID_PAGE then none else some pid,
                pinCount := pin, isDirty := d != 0, isOccupied := o != 0 }, r) ∧
    ((if pid = INVALID_PAGE then (none : Option Nat) else some pid) = none
      ↔ pid = INVALID_PAGE) ∧
    (∀ n : Nat, nextLabel n = "NULL" ↔ n = INVALID_PAGE) := by
  refine ⟨by decide, ?_, ?_, nextLabel_null_iff⟩
  · simp only [List.append_assoc, rdFrame, rdU32_u32le, rdU8_u8le,
      Nat.mod_eq_of_lt hpid, Nat.mod_eq_of_lt hpin,
      Nat.mod_eq_of_lt hd, Nat.mod_eq_of_lt ho]
  · by_cases hcase : pid = INVALID_PAGE <;> simp [hcase]

/-- Witness for C5 at the sentinel page id. -/
theorem invalid_page_sentinel_witness :
    INVALID_PAGE = 2 ^ 32 - 1 ∧
    rdFrame (u32le 4294967295 ++ u32le 2 ++ u8le 1 ++ u8le 1 ++ [])
      = some ({ pageId := if 4294967295 = INVALID_PAGE then none else some 4294967295,
                pinCount := 2, isDirty := (1 : Nat) != 0,
                isOccupied := (1 : Nat) != 0 }, []) ∧
    ((if 4294967295 = INVALID_PAGE then (none : Option Nat) else some 4294967295) = none
      ↔ 4294967295 = INVALID_PAGE) ∧
    (∀ n : Nat, nextLabel n = "NULL" ↔ n = INVALID_PAGE) :=
  invalid_page_sentinel 4294967295 2 1 1 []
    (by decide) (by decide) (by decide) (by decide)

/-- C8: `BinaryReader.u64` combines two little-endian u32 halves as
`lo + 2^32 * hi`, and the four u64 counters hits, misses, disk_reads and
disk_writes are recovered exactly by `decodeBufferPool` whenever their
values are below `2^53` (which `BufferPoolSnapshot.WF` requires, making the
source's `Number(...)` conversion exact). -/
theorem u64_little_endian (lo hi : Nat) (r : Bytes)
    (hlo : lo < 4294967296) (hhi : hi < 4294967296)
    (b : BufferPoolSnapshot) (hb : b.WF) (extra : Bytes) :
    rdU64 (u32le lo ++ u32le hi ++ r) = some (lo + 4294967296 * hi, r) ∧
    (decodeBufferPool (encodeBufferPool b ++ extra)).map
        (fun s => (s.hitCount, s.missCount, s.diskReadCount, s.diskWriteCount))
      = some (b.hitCount, b.missCount, b.diskReadCount, b.diskWriteCount) := by
  constructor
  · simp only [List.append_assoc, rdU64, rdU32_u32le,
      Nat.mod_eq_of_lt hlo, Nat.mod_eq_of_lt hhi]
  · rw [decodeBufferPool_encodeBufferPool_aux b hb extra]
    rfl

/-- Witness for C8 at concrete u32 halves and the concrete pool snapshot. -/
theorem u64_little_endian_witness :
    rdU64 (u32le 7 ++ u32le 3 ++ [9]) = some (7 + 4294967296 * 3, [9]) ∧
    (decodeBufferPool (encodeBufferPool bpEx ++ [7])).map
        (fun s => (s.hitCount, s.missCount, s.diskReadCount, s.diskWriteCount))
      = some (bpEx.hitCount, bpEx.missCount, bpEx.diskReadCount, bpEx.diskWriteCount) :=
  u64_little_endian 7 3 [9] (by decide) (by decide) bpEx (by decide) [7]

/-! The table snapshot (`decodeTable` in `engine.ts`). -/

/-- Column types as decoded by `decodeTable` (`ColumnDef.type` in
`engine.ts`): the strings Int32, UInt32, Float64, Bool and the objects
{VarChar: maxLen} and {Blob: maxLen}. -/
inductive ColumnType where
  | int32
  | uint32
  | float64
  | bool
  | varChar (maxLen : Nat)
  | blob (maxLen : Nat)
deriving DecidableEq

/-- One column definition.  Column names are kept as their UTF-8 byte
sequences; the source's `TextDecoder` step is the identity on them at the
byte level. -/
structure ColumnDef where
  name : Bytes
  type : ColumnType
  nullable : Bool
deriving DecidableEq

/-- The structure `decodeTable` produces (`TableInfo` in `engine.ts`). -/
structure TableInfo where
  name : Bytes
  rowCount : Nat
  firstPageId : Nat
  columns : List ColumnDef
  pageIds : List Nat
deriving DecidableEq

/-- Embedding of the type-tag switch in `decodeTable`: tags 0..5 map to
Int32, UInt32, Float64, Bool, VarChar(max_len), Blob(max_len); every other
tag falls to the `default` branch and yields Int32. -/
def typeOfTag (tag maxLen : Nat) : ColumnType :=
  match tag with
  | 0 => .int32
  | 1 => .uint32
  | 2 => .float64
  | 3 => .bool
  | 4 => .varChar maxLen
  | 5 => .blob maxLen
  | _ => .int32

/-- Reader for one column record: u16 name_len, that many name bytes,
u8 type_tag, u8 nullable, u16 max_len. -/
def rdColumn (bs : Bytes) : Option (ColumnDef × Bytes) :=
  match rdU16 bs with
  | none => none
  | some (cnLen, bs) =>
  match rdBytes cnLen bs with
  | none => none
  | some (cname, bs) =>
  match rdU8 bs with
  | none => none
  | some (tag, bs) =>
  match rdU8 bs with
  | none => none
  | some (nb, bs) =>
  match rdU16 bs with
  | none => none
  | some (maxLen, bs) =>
    some ({ name := cname, type := typeOfTag tag maxLen, nullable := nb != 0 }, bs)

/-- Embedding of `decodeTable` from `engine.ts`: u16 name_len, name bytes,
u32 row_count, u32 first_page_id, u16 num_cols, num_cols column records,
u32 page_count, page_count u32 page ids, all little-endian. -/
def decodeTable (bs : Bytes) : Option TableInfo :=
  match rdU16 bs with
  | none => none
  | some (nameLen, bs) =>
  match rdBytes nameLen bs with
  | none => none
  | some (name, bs) =>
  match rdU32 bs with
  | none => none
  | some (rowCount, bs) =>
  match rdU32 bs with
  | none => none
  | some (firstPageId, bs) =>
  match rdU16 bs with
  | none => none
  | some (numCols, bs) =>
  match rdList rdColumn numCols bs with
  | none => none
  | some (columns, bs) =>
  match rdU32 bs with
  | none => none
  | some (pageCount, bs) =>
  match rdList rdU32 pageCount bs with
  | none => none
  | some (pageIds, _) =>
    some { name := name, rowCount := rowCount, firstPageId := firstPageId,
           columns := columns, pageIds := pageIds }

/-- Wire tag of a column type. -/
def tagOfType : ColumnType → Nat
  | .int32 => 0
  | .uint32 => 1
  | .float64 => 2
  | .bool => 3
  | .varChar _ => 4
  | .blob _ => 5

/-- Wire max_len of a column type: the declared cap for the variable-width
variants, zero for the fixed-width ones. -/
def maxLenOfType : ColumnType → Nat
  | .varChar n => n
  | .blob n => n
  | _ => 0

/-- Encoding of one column record of the Table snapshot layout. -/
def encColumn (c : ColumnDef) : Bytes :=
  u16le c.name.length ++ c.name ++ u8le (tagOfType c.type) ++
  u8le (if c.nullable then 1 else 0) ++ u16le (maxLenOfType c.type)

/-- Modelled from the spec: the engine-side Table snapshot emitter (in the
wasm binary, absent from the sources) serializes, little-endian,
`u16 name_len, name_len UTF-8 bytes, u32 row_count, u32 first_page_id,
u16 num_cols, num_cols × {u16 name_len, bytes, u8 type_tag, u8 nullable,
u16 max_len}, u32 page_count, page_count × u32 page_ids` with type tags
0=Int32, 1=UInt32, 2=Float64, 3=Bool, 4=VarChar, 5=Blob
(spec section 4.6, item 4). -/
def encodeTable (t : TableInfo) : Bytes :=
  u16le t.name.length ++ t.name ++ u32le t.rowCount ++ u32le t.firstPageId ++
  u16le t.columns.length ++ (t.columns.map encColumn).flatten ++
  u32le t.pageIds.length ++ (t.pageIds.map u32le).flatten

/-- Well-formedness of a table snapshot: every field fits its wire width. -/
def TableInfo.WF (t : TableInfo) : Prop :=
  t.name.length < 65536 ∧ t.rowCount < 4294967296 ∧
  t.firstPageId < 4294967296 ∧ t.columns.length < 65536 ∧
  (∀ c ∈ t.columns, c.name.length < 65536 ∧ maxLenOfType c.type < 65536) ∧
  t.pageIds.length < 4294967296 ∧ (∀ pid ∈ t.pageIds, pid < 4294967296)

instance (t : TableInfo) : Decidable t.WF := by
  unfold TableInfo.WF; infer_instance

theorem rdColumn_encColumn (c : ColumnDef)
    (h : c.name.length < 65536 ∧ maxLenOfType c.type < 65536) (r : Bytes) :
    rdColumn (encColumn c ++ r) = some (c, r) := by
  obtain ⟨h1, h2⟩ := h
  have htag : tagOfType c.type < 256 := by cases c.type <;> simp [tagOfType]
  have hb : ∀ b : Bool, ((if b then 1 else 0) % 256 != 0) = b := by decide
  obtain ⟨cname, ctype, cnull⟩ := c
  simp only at h1 h2 htag
  have hback : typeOfTag (tagOfType ctype) (maxLenOfType ctype) = ctype := by
    cases ctype <;> rfl
  simp only [encColumn, List.append_assoc, rdColumn, rdU16_u16le, rdU8_u8le,
    Nat.mod_eq_of_lt h1, Nat.mod_eq_of_lt h2, Nat.mod_eq_of_lt htag, hb,
    rdBytes_append, hback]

/-- Helper: decoding the emitted table layout recovers every field. -/
theorem decodeTable_encodeTable_aux (t : TableInfo) (h : t.WF) (extra : Bytes) :
    decodeTable (encodeTable t ++ extra) = some t := by
  obtain ⟨h1, h2, h3, h4, h5, h6, h7⟩ := h
  have hcols : ∀ r : Bytes, rdList rdColumn t.columns.length
      ((t.columns.map encColumn).flatten ++ r) = some (t.columns, r) :=
    fun r => rdList_append rdColumn encColumn t.columns r
      (fun c hc s => rdColumn_encColumn c (h5 c hc) s)
  have hpids : ∀ r : Bytes, rdList rdU32 t.pageIds.length
      ((t.pageIds.map u32le).flatten ++ r) = some (t.pageIds, r) :=
    fun r => rdList_append rdU32 u32le t.pageIds r
      (fun pid hpid s => by rw [rdU32_u32le, Nat.mod_eq_of_lt (h7 pid hpid)])
  simp only [encodeTable, List.append_assoc, decodeTable, rdU16_u16le, rdU32_u32le,
    Nat.mod_eq_of_lt h1, Nat.mod_eq_of_lt h2, Nat.mod_eq_of_lt h3,
    Nat.mod_eq_of_lt h4, Nat.mod_eq_of_lt h6, rdBytes_append, hcols, hpids]

/-- C3: `decodeTable` reads, little-endian and in this exact order, u16
name_len, name_len UTF-8 name bytes, u32 row_count, u32 first_page_id,
u16 num_cols, num_cols column records of {u16 name_len, bytes, u8 type_tag,
u8 nullable, u16 max_len}, then u32 page_count and page_count u32 page ids;
the tag byte maps 0 to Int32, 1 to UInt32, 2 to Float64, 3 to Bool, 4 to
VarChar(max_len) and 5 to Blob(max_len). -/
theorem decodeTable_layout (t : TableInfo) (h : t.WF) (extra : Bytes) :
    decodeTable (encodeTable t ++ extra) = some t ∧
    (∀ ml : Nat, typeOfTag 0 ml = .int32 ∧ typeOfTag 1 ml = .uint32 ∧
      typeOfTag 2 ml = .float64 ∧ typeOfTag 3 ml = .bool ∧
      typeOfTag 4 ml = .varChar ml ∧ typeOfTag 5 ml = .blob ml) :=
  ⟨decodeTable_encodeTable_aux t h extra,
   fun _ => ⟨rfl, rfl, rfl, rfl, rfl, rfl⟩⟩

/-- Concrete table snapshot used by the C3 witness ("users": id Int32 not
null, name VarChar(32) nullable). -/
def tableEx : TableInfo :=
  { name := [117, 115, 101, 114, 115], rowCount := 2, firstPageId := 0,
    columns := [{ name := [105, 100], type := .int32, nullable := false },
                { name := [110, 97, 109, 101], type := .varChar 32, nullable := true }],
    pageIds := [0, 3] }

/-- Witness for C3 at a concrete table snapshot. -/
theorem decodeTable_layout_witness :
    decodeTable (encodeTable tableEx ++ [5]) = some tableEx ∧
    (∀ ml : Nat, typeOfTag 0 ml = .int32 ∧ typeOfTag 1 ml = .uint32 ∧
      typeOfTag 2 ml = .float64 ∧ typeOfTag 3 ml = .bool ∧
      typeOfTag 4 ml = .varChar ml ∧ typeOfTag 5 ml = .blob ml) :=
  decodeTable_layout tableEx (by decide) [5]

/-- C9: a column record whose type_tag byte lies outside 0..5 still decodes
(no failure) and its type falls back to Int32 with max_len discarded; tags 4
and 5 are the only ones whose decoded type carries max_len. -/
theorem unknown_tag_falls_back (cname : Bytes) (tag nb maxLen : Nat) (r : Bytes)
    (hn : cname.length < 65536) (htag : tag < 256) (hnb : nb < 256)
    (hml : maxLen < 65536) (hout : 5 < tag) :
    rdColumn (u16le cname.length ++ cname ++ u8le tag ++ u8le nb ++ u16le maxLen ++ r)
      = some ({ name := cname, type := .int32, nullable := nb != 0 }, r) ∧
    (∀ t ml n : Nat, (typeOfTag t ml = .varChar n → t = 4) ∧
      (typeOfTag t ml = .blob n → t = 5)) := by
  constructor
  · have hfall : typeOfTag tag maxLen = .int32 := by
      rcases tag with _ | _ | _ | _ | _ | _ | tag
      · omega
      · omega
      · omega
      · omega
      · omega
      · omega
      · rfl
    simp only [List.append_assoc, rdColumn, rdU16_u16le, rdU8_u8le,
      Nat.mod_eq_of_lt hn, Nat.mod_eq_of_lt hml, Nat.mod_eq_of_lt htag,
      Nat.mod_eq_of_lt hnb, rdBytes_append, hfall]
  · intro t ml n
    constructor <;>
      (intro heq
       rcases t with _ | _ | _ | _ | _ | _ | t <;>
         first
           | rfl
           | exact absurd heq (by simp [typeOfTag]))

/-- Witness for C9 at the out-of-range tag 9. -/
theorem unknown_tag_falls_back_witness :
    rdColumn (u16le 1 ++ [120] ++ u8le 9 ++ u8le 1 ++ u16le 44 ++ [8])
      = some ({ name := [120], type := .int32, nullable := (1 : Nat) != 0 }, [8]) ∧
    (∀ t ml n : Nat, (typeOfTag t ml = .varChar n → t = 4) ∧
      (typeOfTag t ml = .blob n → t = 5)) := by
  have h := unknown_tag_falls_back [120] 9 1 44 [8]
    (by decide) (by decide) (by decide) (by decide) (by decide)
  simpa using h

/-! Row-id rendering and parsing (`selectRowFromScan` in the stores). -/

/-- JavaScript whitespace skipped by `parseInt` before the number: the
ECMAScript TrimString set, that is WhiteSpace (TAB, VT, FF, SP, NBSP,
ZWNBSP and the Unicode Space_Separator category U+1680, U+2000..U+200A,
U+202F, U+205F, U+3000) together with LineTerminator (LF, CR, LS U+2028,
PS U+2029). -/
def isJsSpace (c : Char) : Bool :=
  c = '\t' ∨ c = '\n' ∨ c = '\x0b' ∨ c = '\x0c' ∨ c = '\r' ∨ c = ' ' ∨
  c = '\u00A0' ∨ c = '\u1680' ∨ ('\u2000' ≤ c ∧ c ≤ '\u200A') ∨
  c = '\u2028' ∨ c = '\u2029' ∨ c = '\u202F' ∨ c = '\u205F' ∨
  c = '\u3000' ∨ c = '\uFEFF'

/-- Decimal value of a digit character, `none` otherwise. -/
def digitVal (c : Char) : Option Nat :=
  if '0' ≤ c ∧ c ≤ '9' then some (c.toNat - 48) else none

/-- Accumulate the maximal decimal-digit prefix, as `parseInt` does, and
ignore everything after the first non-digit. -/
def parseDigits : List Char → Nat → Nat
  | [], acc => acc
  | c :: cs, acc =>
    match digitVal c with
    | some d => parseDigits cs (10 * acc + d)
    | none => acc

/-- Whether the first character is a decimal digit. -/
def startsWithDigit : List Char → Bool
  | [] => false
  | c :: _ => (digitVal c).isSome

/-- Body of `parseInt` after its whitespace trimming: accept an optional
sign, then require at least one digit (`none` models NaN); the number is
the maximal digit prefix and trailing characters are ignored. -/
def jsParseIntTrimmed : List Char → Option Int
  | [] => none
  | c :: rest =>
    if c = '-' then
      if startsWithDigit rest then some (-(parseDigits rest 0 : Int)) else none
    else if c = '+' then
      if startsWithDigit rest then some ((parseDigits rest 0 : Int)) else none
    else
      if (digitVal c).isSome then some ((parseDigits (c :: rest) 0 : Int)) else none

/-- Embedding of `parseInt(str, 10)`: skip leading whitespace, then parse. -/
def jsParseInt (cs0 : List Char) : Option Int :=
  jsParseIntTrimmed (cs0.dropWhile isJsSpace)

/-- Embedding of `String.prototype.split` with a single-character
separator. -/
def splitOnChar (sep : Char) : List Char → List (List Char)
  | [] => [[]]
  | c :: cs =>
    if c = sep then [] :: splitOnChar sep cs
    else
      match splitOnChar sep cs with
      | [] => [[c]]
      | p :: ps => (c :: p) :: ps

/-- Decimal digit characters of a natural number, most significant first
(the rendering of a JS number in a template literal). -/
def digitChars (n : Nat) : List Char :=
  if _ : n < 10 then [Nat.digitChar n]
  else digitChars (n / 10) ++ [Nat.digitChar (n % 10)]
decreasing_by omega

/-- Rendering of a RowId as the decimal text `p:s` (the engine returns this
string and the stores interpolate it back). -/
def renderRowId (p s : Nat) : List Char := digitChars p ++ ':' :: digitChars s

/-- Embedding of the row-id parsing in `selectRowFromScan`
(`src/frontend/src/stores/storage.ts` and
`src/frontend/src/lib/stores/storage.svelte.ts`): split on a colon, require
exactly two parts, `parseInt` both with radix 10, and reject when either is
NaN. -/
def parseRowId (cs : List Char) : Option (Int × Int) :=
  match splitOnChar ':' cs with
  | [a, b] =>
    match jsParseInt a, jsParseInt b with
    | some p, some q => some (p, q)
    | _, _ => none
  | _ => none

/-- The two-part decimal form named by the claim: exactly two nonempty
all-digit parts around a single colon. -/
def isTwoPartDecimal (cs : List Char) : Bool :=
  match splitOnChar ':' cs with
  | [a, b] =>
      !a.isEmpty && a.all (fun c => (digitVal c).isSome) &&
      (!b.isEmpty && b.all (fun c => (digitVal c).isSome))
  | _ => false

/-- Whether a trimmed string starts with an optionally signed digit. -/
def leadsWithIntTrimmed : List Char → Bool
  | [] => false
  | c :: rest =>
    if c = '-' ∨ c = '+' then startsWithDigit rest else (digitVal c).isSome

/-- Acceptance shape of the store's parser for one part: a leading
(optionally signed, whitespace-led) decimal digit. -/
def leadsWithInt (cs0 : List Char) : Bool :=
  leadsWithIntTrimmed (cs0.dropWhile isJsSpace)

/-- Parser acceptance shape for whole row-id strings. -/
def rowIdShape (cs : List Char) : Bool :=
  match splitOnChar ':' cs with
  | [a, b] => leadsWithInt a && leadsWithInt b
  | _ => false

/-- Digit characters satisfy every side condition the parser cares about. -/
theorem digitChar_props : ∀ d : Nat, d < 10 →
    digitVal (Nat.digitChar d) = some d ∧ isJsSpace (Nat.digitChar d) = false ∧
    Nat.digitChar d ≠ ':' ∧ Nat.digitChar d ≠ '-' ∧ Nat.digitChar d ≠ '+' := by
  decide

/-- Rendered digit strings are nonempty. -/
theorem digitChars_ne_nil (n : Nat) : digitChars n ≠ [] := by
  rw [digitChars]
  split
  · simp
  · simp

/-- Every character of a rendered number is a decimal digit. -/
theorem digitChars_mem (n : Nat) : ∀ c ∈ digitChars n, ∃ d, d < 10 ∧ c = Nat.digitChar d := by
  induction n using Nat.strong_induction_on with
  | _ n ih =>
    rw [digitChars]
    split
    · intro c hc
      simp only [List.mem_singleton] at hc
      exact ⟨n, by omega, hc⟩
    · intro c hc
      rcases List.mem_append.mp hc with h | h
      · exact ih (n / 10) (by omega) c h
      · simp only [List.mem_singleton] at h
        exact ⟨n % 10, by omega, h⟩

/-- Consuming a rendered number accumulates exactly its value. -/
theorem parseDigits_digitChars (n : Nat) : ∀ acc : Nat, ∀ cs : List Char,
    parseDigits (digitChars n ++ cs) acc
      = parseDigits cs (acc * 10 ^ (digitChars n).length + n) := by
  induction n using Nat.strong_induction_on with
  | _ n ih =>
    intro acc cs
    rw [digitChars]
    split
    · rename_i hlt
      have hd := (digitChar_props n hlt).1
      simp [parseDigits, hd, Nat.mul_comm]
    · rename_i hge
      have hm : n % 10 < 10 := Nat.mod_lt _ (by norm_num)
      have hd := (digitChar_props (n % 10) hm).1
      rw [List.append_assoc, List.singleton_append]
      rw [ih (n / 10) (by omega) acc (Nat.digitChar (n % 10) :: cs)]
      simp only [parseDigits, hd, List.length_append, List.length_singleton]
      congr 1
      have hpow : acc * 10 ^ ((digitChars (n / 10)).length + 1)
          = acc * 10 ^ (digitChars (n / 10)).length * 10 := by ring
      rw [hpow]
      omega

/-- Parsing a rendered number with `parseInt` returns exactly its value. -/
theorem jsParseInt_digitChars (n : Nat) : jsParseInt (digitChars n) = some (n : Int) := by
  obtain ⟨c, rest, hcr⟩ := List.exists_cons_of_ne_nil (digitChars_ne_nil n)
  have hc : c ∈ digitChars n := by rw [hcr]; exact List.mem_cons_self c rest
  obtain ⟨d, hd10, hcd⟩ := digitChars_mem n c hc
  have hprops := digitChar_props d hd10
  subst hcd
  have hparse : parseDigits (digitChars n) 0 = n := by
    have h0 := parseDigits_digitChars n 0 []
    simpa [parseDigits] using h0
  have hdrop : (digitChars n).dropWhile isJsSpace = digitChars n := by
    rw [hcr, List.dropWhile_cons, if_neg (by simp [hprops.2.1])]
  rw [jsParseInt, hdrop, hcr, jsParseIntTrimmed]
  rw [if_neg hprops.2.2.2.1, if_neg hprops.2.2.2.2, if_pos (by simp [hprops.1])]
  rw [← hcr, hparse]

/-- Splitting passes over a separator-free prefix. -/
theorem splitOnChar_append (sep : Char) (l1 l2 : List Char) (h : sep ∉ l1) :
    splitOnChar sep (l1 ++ sep :: l2) = l1 :: splitOnChar sep l2 := by
  induction l1 with
  | nil => simp [splitOnChar]
  | cons c cs ih =>
    have hcne : c ≠ sep := fun hc => h (hc ▸ List.mem_cons_self c cs)
    have hrest : sep ∉ cs := fun hc => h (List.mem_cons_of_mem c hc)
    rw [List.cons_append, splitOnChar, if_neg (by exact fun hc => hcne hc)]
    rw [ih hrest]

/-- Splitting a separator-free string is the identity. -/
theorem splitOnChar_not_mem (sep : Char) (l : List Char) (h : sep ∉ l) :
    splitOnChar sep l = [l] := by
  induction l with
  | nil => rfl
  | cons c cs ih =>
    have hcne : c ≠ sep := fun hc => h (hc ▸ List.mem_cons_self c cs)
    have hrest : sep ∉ cs := fun hc => h (List.mem_cons_of_mem c hc)
    rw [splitOnChar, if_neg (by exact fun hc => hcne hc), ih hrest]

/-- Rendered numbers contain no colon. -/
theorem colon_not_mem_digitChars (n : Nat) : ':' ∉ digitChars n := by
  intro hmem
  obtain ⟨d, hd10, hcd⟩ := digitChars_mem n ':' hmem
  exact (digitChar_props d hd10).2.2.1 hcd.symm

/-- The parser and the acceptance shape agree part-wise. -/
theorem jsParseInt_isSome_iff (cs : List Char) :
    (jsParseInt cs).isSome = leadsWithInt cs := by
  rw [jsParseInt, leadsWithInt]
  cases hdrop : cs.dropWhile isJsSpace with
  | nil => rfl
  | cons c rest =>
    rw [jsParseIntTrimmed, leadsWithIntTrimmed]
    by_cases hminus : c = '-'
    · rw [if_pos hminus, if_pos (Or.inl hminus)]
      cases hsd : startsWithDigit rest <;> simp [hsd]
    · by_cases hplus : c = '+'
      · rw [if_neg hminus, if_pos hplus, if_pos (Or.inr hplus)]
        cases hsd : startsWithDigit rest <;> simp [hsd]
      · rw [if_neg hminus, if_neg hplus]
        have hne : ¬(c = '-' ∨ c = '+') := by
          intro hor
          rcases hor with h | h
          · exact hminus h
          · exact hplus h
        rw [if_neg hne]
        cases hdig : (digitVal c).isSome <;> simp [hdig]

/-- C4 counterexample: the store's parser accepts `1x:2`, a string that is
not of the two-part decimal form, recovering (1, 2) from the digit prefixes
instead of rejecting it; the claim's rejection clause is false as stated. -/
theorem rowid_lenient_counterexample :
    parseRowId ['1', 'x', ':', '2'] = some (1, 2) ∧
    isTwoPartDecimal ['1', 'x', ':', '2'] = false := by
  decide

/-- C4 (amended): parsing after rendering is the identity on RowIds, and a
string is rejected whenever it does not split on a colon into exactly two
parts each carrying a leading (optionally signed, whitespace-led) decimal
digit; parts with trailing garbage after their digit prefix are accepted
with the prefix's value. -/
theorem parse_after_render (p s : Nat) (cs : List Char)
    (hp : p < 4294967296) (hs : s < 4294967296)
    (hshape : rowIdShape cs = false) :
    parseRowId (renderRowId p s) = some ((p : Int), (s : Int)) ∧
    parseRowId cs = none := by
  constructor
  · simp only [parseRowId, renderRowId,
      splitOnChar_append ':' (digitChars p) (digitChars s) (colon_not_mem_digitChars p),
      splitOnChar_not_mem ':' (digitChars s) (colon_not_mem_digitChars s),
      jsParseInt_digitChars]
  · have hnone : ∀ a b : List Char, splitOnChar ':' cs = [a, b] →
        jsParseInt a = none ∨ jsParseInt b = none := by
      intro a b hsplit
      rw [rowIdShape, hsplit] at hshape
      simp only [Bool.and_eq_false_iff] at hshape
      rcases hshape with ha | hb
      · left
        have h1 := jsParseInt_isSome_iff a
        rw [ha] at h1
        exact Option.not_isSome_iff_eq_none.mp (by simp [h1])
      · right
        have h1 := jsParseInt_isSome_iff b
        rw [hb] at h1
        exact Option.not_isSome_iff_eq_none.mp (by simp [h1])
    rw [parseRowId]
    cases hsplit : splitOnChar ':' cs with
    | nil => rfl
    | cons a parts =>
      cases parts with
      | nil => rfl
      | cons b parts2 =>
        cases parts2 with
        | nil =>
          rcases hnone a b hsplit with h | h
          · simp [h]
          · cases jsParseInt a <;> simp [h]
        | cons c parts3 => rfl

/-- Witness for the amended C4 at the RowId (12, 3) and the rejected input
`x`. -/
theorem parse_after_render_witness :
    parseRowId (renderRowId 12 3) = some ((12 : Int), (3 : Int)) ∧
    parseRowId ['x'] = none :=
  parse_after_render 12 3 ['x'] (by decide) (by decide) (by decide)

/-! Engine-state model for the wasm entry points.  The Rust core compiled
into the wasm binary is not part of the repository: its state and core
operations are modelled from the spec, while the JS bindings and the
TypeScript wrappers around them are embedded from the sources. -/

/-- Modelled from the spec: the logical content of one allocated disk page
(section 4.2 header fields plus the slot directory and raw bytes). -/
structure StoredPage where
  pageId : Nat
  pageType : Nat
  slotCount : Nat
  freeStart : Nat
  freeEnd : Nat
  nextPageId : Nat
  slots : List SlotInfo
  raw : Bytes
deriving DecidableEq

/-- One catalog entry: the table's snapshot view plus the overflow pages its
forwarded rows own (spec sections 3 and 4.5). -/
structure TableCat where
  info : TableInfo
  overflowPages : List Nat
deriving DecidableEq

/-- Modelled from the spec: the engine state seen by the snapshot surface
and the table-manager entry points - buffer-pool frames and bookkeeping
(section 4.3), disk pages indexed by page id with `none` for unallocated
slots (section 4.1), and the table catalog in insertion order
(section 4.5). -/
structure EngineState where
  pageSize : Nat
  frames : List FrameInfo
  pageTable : List (Nat × Nat)
  lruOrder : List Nat
  hitCount : Nat
  missCount : Nat
  diskReadCount : Nat
  diskWriteCount : Nat
  diskBasePtr : Nat
  diskPages : List (Option StoredPage)
  catalog : List TableCat
deriving DecidableEq

/-- Number of allocated disk pages. -/
def countAllocated (dps : List (Option StoredPage)) : Nat :=
  (dps.filter Option.isSome).length

/-- Modelled from the spec: the BufferPool snapshot view of the state
(section 4.6, item 1). -/
def bpView (st : EngineState) : BufferPoolSnapshot :=
  { poolSize := st.frames.length, pageSize := st.pageSize, frames := st.frames,
    pageTable := st.pageTable, lruOrder := st.lruOrder,
    hitCount := st.hitCount, missCount := st.missCount,
    diskReadCount := st.diskReadCount, diskWriteCount := st.diskWriteCount,
    diskNumAllocated := countAllocated st.diskPages,
    diskMaxPages := st.diskPages.length, diskBasePtr := st.diskBasePtr }

/-- Modelled from the spec: the Page snapshot view of one stored page, with
`free_space = free_end - free_start` (section 4.2) and
`num_slots_for_view = slot_count` (section 4.6, item 3). -/
def pageView (ps : Nat) (sp : StoredPage) : PageSnapshot :=
  { pageSize := ps, pageId := sp.pageId, pageType := sp.pageType,
    slotCount := sp.slotCount, freeStart := sp.freeStart, freeEnd := sp.freeEnd,
    nextPageId := sp.nextPageId, freeSpace := sp.freeEnd - sp.freeStart,
    slots := sp.slots, rawBytes := sp.raw }

/-- Modelled from the spec: the Disk snapshot emitter (section 4.6, item 2):
u32 max_pages, u32 page_size, u32 num_allocated, u32 disk_base_ptr, then
max_pages records of {u8 is_allocated, u8 page_type} (type 2 = Free for
unallocated slots). -/
def encodeDisk (st : EngineState) : Bytes :=
  u32le st.diskPages.length ++ u32le st.pageSize ++
  u32le (countAllocated st.diskPages) ++ u32le st.diskBasePtr ++
  (st.diskPages.map (fun op =>
    match op with
    | none => u8le 0 ++ u8le 2
    | some sp => u8le 1 ++ u8le sp.pageType)).flatten

/-- Catalog lookup by table name. -/
def findTable (st : EngineState) (name : Bytes) : Option TableCat :=
  st.catalog.find? (fun tc => tc.info.name == name)

/-- Modelled from the spec: `snapshot_buffer_pool` serializes the pool
state through a dedicated non-recording read path and mutates nothing
(sections 4.6 and P9); the state component is the state after the call. -/
def snapshot_buffer_pool (st : EngineState) : Bytes × EngineState :=
  (encodeBufferPool (bpView st), st)

/-- Modelled from the spec: `snapshot_disk`, same non-mutating contract. -/
def snapshot_disk (st : EngineState) : Bytes × EngineState :=
  (encodeDisk st, st)

/-- Modelled from the spec: `snapshot_page` emits the Page layout for an
allocated page id and no bytes otherwise, mutating nothing (the JS binding
surfaces the absent case as `undefined`). -/
def snapshot_page (st : EngineState) (pid : Nat) : Option Bytes × EngineState :=
  (match st.diskPages[pid]? with
   | some (some sp) => some (encodePage (pageView st.pageSize sp))
   | _ => none, st)

/-- Modelled from the spec: `snapshot_table` emits the Table layout for a
catalogued name and no bytes otherwise, mutating nothing. -/
def snapshot_table (st : EngineState) (name : Bytes) : Option Bytes × EngineState :=
  ((findTable st name).map (fun tc => encodeTable tc.info), st)

/-- C7: taking the same snapshot twice with no intervening mutation yields
byte-identical results, and taking a snapshot mutates no cache state: the
frames (pin counts and dirty bits), the page table, the LRU order and the
hit/miss/disk-I/O counters are unchanged by each of snapshot_buffer_pool,
snapshot_disk, snapshot_page and snapshot_table. -/
theorem snapshot_purity (st : EngineState) (pid : Nat) (name : Bytes) :
    (snapshot_buffer_pool st).2 = st ∧
    (snapshot_disk st).2 = st ∧
    (snapshot_page st pid).2 = st ∧
    (snapshot_table st name).2 = st ∧
    (snapshot_buffer_pool ((snapshot_buffer_pool st).2)).1
      = (snapshot_buffer_pool st).1 ∧
    (snapshot_disk ((snapshot_disk st).2)).1 = (snapshot_disk st).1 ∧
    (snapshot_page ((snapshot_page st pid).2) pid).1 = (snapshot_page st pid).1 ∧
    (snapshot_table ((snapshot_table st name).2) name).1
      = (snapshot_table st name).1 ∧
    (snapshot_buffer_pool st).2.frames = st.frames ∧
    (snapshot_buffer_pool st).2.pageTable = st.pageTable ∧
    (snapshot_buffer_pool st).2.lruOrder = st.lruOrder ∧
    (snapshot_buffer_pool st).2.hitCount = st.hitCount ∧
    (snapshot_buffer_pool st).2.missCount = st.missCount ∧
    (snapshot_buffer_pool st).2.diskReadCount = st.diskReadCount ∧
    (snapshot_buffer_pool st).2.diskWriteCount = st.diskWriteCount :=
  ⟨rfl, rfl, rfl, rfl, rfl, rfl, rfl, rfl, rfl, rfl, rfl, rfl, rfl, rfl, rfl⟩

/-! Dropping a table (C6). -/

/-- All pages a table owns: its data chain plus its overflow chains. -/
def TableCat.ownedPages (tc : TableCat) : List Nat :=
  tc.info.pageIds ++ tc.overflowPages

/-- Free the listed page ids starting from index `i` (spec section 4.1:
free marks the slot unallocated and is silent on already-free ids). -/
def freePagesFrom (i : Nat) (ps : List Nat) :
    List (Option StoredPage) → List (Option StoredPage)
  | [] => []
  | op :: rest => (if i ∈ ps then none else op) :: freePagesFrom (i + 1) ps rest

/-- Free the listed page ids on the disk. -/
def freePages (dps : List (Option StoredPage)) (ps : List Nat) :
    List (Option StoredPage) :=
  freePagesFrom 0 ps dps

theorem freePagesFrom_getElem (ps : List Nat) :
    ∀ (dps : List (Option StoredPage)) (i j : Nat),
      (freePagesFrom i ps dps)[j]?
        = (dps[j]?).map (fun op => if (i + j) ∈ ps then none else op) := by
  intro dps
  induction dps with
  | nil => intro i j; simp [freePagesFrom]
  | cons op rest ih =>
    intro i j
    cases j with
    | zero => simp [freePagesFrom]
    | succ j =>
      simp only [freePagesFrom, List.getElem?_cons_succ, ih (i + 1) j]
      have harith : i + 1 + j = i + (j + 1) := by omega
      rw [harith]

/-- Freed pages read back as unallocated. -/
theorem freePages_freed (dps : List (Option StoredPage)) (ps : List Nat)
    (p : Nat) (hmem : p ∈ ps) (hlt : p < dps.length) :
    (freePages dps ps)[p]? = some none := by
  rw [freePages, freePagesFrom_getElem ps dps 0 p]
  have hop : dps[p]? = some dps[p] := List.getElem?_eq_getElem hlt
  rw [hop]
  simp [Nat.zero_add, hmem]

/-- Modelled from the spec: the core drop_table (section 4.5, Drop): free
every page of the chain and of its overflow chains, remove the table from
the catalog, and report 1 when the table existed, 0 otherwise (idempotent
for unknown names; the wasm ABI returns the boolean as an integer). -/
def wasm_drop_table (st : EngineState) (name : Bytes) : Nat × EngineState :=
  match findTable st name with
  | none => (0, st)
  | some tc =>
      (1, { st with
        catalog := st.catalog.filter (fun u => !(u.info.name == name)),
        diskPages := freePages st.diskPages tc.ownedPages })

/-- Embedding of the `drop_table` binding in `wizalloc_engine.js`: it calls
the wasm export and returns `ret !== 0`; unlike the create_table, insert,
get, delete and scan bindings it has no exception branch, so its result
type is a plain boolean rather than an `Except`. -/
def drop_table (st : EngineState) (name : Bytes) : Bool × EngineState :=
  ((wasm_drop_table st name).1 != 0, (wasm_drop_table st name).2)

/-- Errors the other bindings can raise (spec section 7). -/
inductive EngineError where
  | alreadyExists
  | invalidSchema
  | diskFull
deriving DecidableEq

/-- Distinctness of a list of column names. -/
def allDistinct : List Bytes → Bool
  | [] => true
  | x :: xs => !(xs.contains x) && allDistinct xs

/-- Modelled from the spec: schema validation (section 4.5, Create table):
at least one column, unique names, variable-width caps at least 1 and at
most page_size minus the 16-byte header. -/
def validSchema (pageSize : Nat) (cols : List ColumnDef) : Bool :=
  !cols.isEmpty && allDistinct (cols.map (fun c => c.name)) &&
  cols.all (fun c =>
    match c.type with
    | .varChar n => decide (1 ≤ n ∧ n + 16 ≤ pageSize)
    | .blob n => decide (1 ≤ n ∧ n + 16 ≤ pageSize)
    | _ => true)

/-- Smallest unallocated page id (spec section 4.1: allocate returns the
smallest-id free page). -/
def firstFree (dps : List (Option StoredPage)) : Option Nat :=
  (List.range dps.length).find? (fun i => decide (dps[i]? = some none))

/-- Modelled from the spec: page init (section 4.2): slot_count 0,
free_start 16, free_end page_size, next NONE, zeroed body. -/
def initPage (pageSize pid ptype : Nat) : StoredPage :=
  { pageId := pid, pageType := ptype, slotCount := 0, freeStart := 16,
    freeEnd := pageSize, nextPageId := INVALID_PAGE, slots := [],
    raw := List.replicate pageSize 0 }

/-- Modelled from the spec: the core create_table (section 4.5): reject an
existing name or an invalid schema, otherwise allocate one data page as
first_page_id and append the catalog entry. -/
def wasm_create_table (st : EngineState) (name : Bytes) (cols : List ColumnDef) :
    Except EngineError (Bool × EngineState) :=
  if (findTable st name).isSome then .error .alreadyExists
  else if !(validSchema st.pageSize cols) then .error .invalidSchema
  else
    match firstFree st.diskPages with
    | none => .error .diskFull
    | some pid =>
        let tinfo : TableInfo :=
          { name := name, rowCount := 0, firstPageId := pid,
            columns := cols, pageIds := [pid] }
        .ok (true, { st with
          diskPages := st.diskPages.set pid (some (initPage st.pageSize pid 0)),
          catalog := st.catalog ++ [{ info := tinfo, overflowPages := [] }] })

/-- Embedding of the `create_table` binding in `wizalloc_engine.js`: the
wasm result carries an error flag (`ret[2]`) and the binding throws the
carried error in that case, returning `ret[0] !== 0` otherwise; the
`Except.error` constructor models the throw. -/
def create_table (st : EngineState) (name : Bytes) (cols : List ColumnDef) :
    Except EngineError (Bool × EngineState) :=
  match wasm_create_table st name cols with
  | .error e => .error e
  | .ok r => .ok r

/-- C6: drop_table always returns a boolean and never raises at the public
boundary - its binding, unlike create_table's, has no exception branch: it
returns false and leaves the state unchanged when the name is not in the
catalog (idempotent), and true when the table existed, with the table
removed from the catalog and all of its data and overflow pages freed;
create_table on an existing name, by contrast, throws AlreadyExists. -/
theorem drop_table_total (st : EngineState) (name : Bytes) (cols : List ColumnDef) :
    (findTable st name = none → drop_table st name = (false, st)) ∧
    (∀ tc, findTable st name = some tc →
      (drop_table st name).1 = true ∧
      (drop_table st name).2.catalog
        = st.catalog.filter (fun u => !(u.info.name == name)) ∧
      (∀ p ∈ tc.ownedPages, p < st.diskPages.length →
        (drop_table st name).2.diskPages[p]? = some none)) ∧
    ((findTable st name).isSome →
      create_table st name cols = .error .alreadyExists) := by
  refine ⟨?_, ?_, ?_⟩
  · intro hnone
    rw [drop_table, wasm_drop_table, hnone]
    rfl
  · intro tc hsome
    rw [drop_table, wasm_drop_table, hsome]
    refine ⟨rfl, rfl, ?_⟩
    intro p hp hlt
    exact freePages_freed st.diskPages tc.ownedPages p hp hlt
  · intro hsome
    rw [create_table, wasm_create_table, if_pos hsome]

/-- Concrete engine state used by the C6 witness: one table owning pages 0
and 1, one unrelated allocated page. -/
def stEx : EngineState :=
  { pageSize := 64, frames := [], pageTable := [], lruOrder := [],
    hitCount := 0, missCount := 0, diskReadCount := 0, diskWriteCount := 0,
    diskBasePtr := 0,
    diskPages := [some (initPage 64 0 0), some (initPage 64 1 1),
                  some (initPage 64 2 0), none],
    catalog := [{ info := { name := [116], rowCount := 1, firstPageId := 0,
                            columns := [{ name := [99], type := .int32,
                                          nullable := false }],
                            pageIds := [0] },
                  overflowPages := [1] }] }

/-- Witness for C6: dropping an unknown name returns false and changes
nothing; dropping the existing table returns true, empties the catalog and
frees pages 0 and 1; creating the existing name throws. -/
theorem drop_table_total_witness :
    drop_table stEx [120] = (false, stEx) ∧
    (drop_table stEx [116]).1 = true ∧
    (drop_table stEx [116]).2.diskPages[1]? = some none ∧
    create_table stEx [116] [] = .error .alreadyExists := by
  refine ⟨(drop_table_total stEx [120] []).1 (by decide), ?_, ?_, ?_⟩
  · exact ((drop_table_total stEx [116] []).2.1
      { info := { name := [116], rowCount := 1, firstPageId := 0,
                  columns := [{ name := [99], type := .int32, nullable := false }],
                  pageIds := [0] }, overflowPages := [1] } (by decide)).1
  · exact ((drop_table_total stEx [116] []).2.1
      { info := { name := [116], rowCount := 1, firstPageId := 0,
                  columns := [{ name := [99], type := .int32, nullable := false }],
                  pageIds := [0] }, overflowPages := [1] } (by decide)).2.2
      1 (by decide) (by decide)
  · exact (drop_table_total stEx [116] []).2.2 (by decide)

/-! Snapshot wrappers (C10). -/

/-- Embedding of `StorageEngineWrapper.snapshotPage` in
`storage-engine.ts`: the binding returns bytes or `undefined`, and the
wrapper returns `decodePage(data)` when data is present and null otherwise.
In the result, the inner `none` is the null return and the outer `none`
models a thrown exception (decode failure). -/
def snapshotPage (st : EngineState) (pid : Nat) : Option (Option PageSnapshot) :=
  match (snapshot_page st pid).1 with
  | none => some none
  | some data => (decodePage data).map some

/-- Embedding of `StorageEngineWrapper.snapshotTable`, same shape. -/
def snapshotTable (st : EngineState) (name : Bytes) : Option (Option TableInfo) :=
  match (snapshot_table st name).1 with
  | none => some none
  | some data => (decodeTable data).map some

/-- Per-page well-formedness of a disk slot. -/
def optionPageWF (ps : Nat) : Option StoredPage → Prop
  | none => True
  | some sp => (pageView ps sp).WF

instance (ps : Nat) (op : Option StoredPage) : Decidable (optionPageWF ps op) := by
  cases op <;> simp only [optionPageWF] <;> infer_instance

/-- Well-formedness of an engine state: every stored page and every
catalogued table projects to a well-formed snapshot view. -/
def EngineState.WF (st : EngineState) : Prop :=
  (∀ op ∈ st.diskPages, optionPageWF st.pageSize op) ∧
  (∀ tc ∈ st.catalog, tc.info.WF)

instance (st : EngineState) : Decidable st.WF := by
  unfold EngineState.WF; infer_instance

/-- C10: absence at the snapshot interface is always signalled by a null,
never by an exception: when the engine produces no snapshot bytes for a
page id (unallocated or out of range), `snapshotPage` returns null, and
`snapshotTable` returns null for every table name not in the catalog; on a
well-formed state neither wrapper ever throws. -/
theorem snapshot_absence (st : EngineState) (pid : Nat) (name : Bytes)
    (h : st.WF) :
    ((st.diskPages[pid]? = none ∨ st.diskPages[pid]? = some none) →
      snapshotPage st pid = some none) ∧
    (findTable st name = none → snapshotTable st name = some none) ∧
    snapshotPage st pid ≠ none ∧
    snapshotTable st name ≠ none := by
  obtain ⟨hpages, htables⟩ := h
  have hpage : snapshotPage st pid = some none ∨
      ∃ v : PageSnapshot, snapshotPage st pid = some (some v) := by
    rw [snapshotPage, snapshot_page]
    cases hget : st.diskPages[pid]? with
    | none => left; rfl
    | some op =>
      cases op with
      | none => left; rfl
      | some sp =>
        right
        have hmem : some sp ∈ st.diskPages := List.getElem?_mem hget
        have hwf : (pageView st.pageSize sp).WF := by
          have := hpages (some sp) hmem
          simpa [optionPageWF] using this
        have hdec := decodePage_encodePage_aux (pageView st.pageSize sp) hwf []
        rw [List.append_nil] at hdec
        exact ⟨pageView st.pageSize sp, by simp [hdec]⟩
  have htable : snapshotTable st name = some none ∨
      ∃ v : TableInfo, snapshotTable st name = some (some v) := by
    rw [snapshotTable, snapshot_table]
    cases hfind : findTable st name with
    | none => left; rfl
    | some tc =>
      right
      have hmem : tc ∈ st.catalog := List.mem_of_find?_eq_some hfind
      have hwf : tc.info.WF := htables tc hmem
      have hdec := decodeTable_encodeTable_aux tc.info hwf []
      rw [List.append_nil] at hdec
      exact ⟨tc.info, by simp [hdec]⟩
  refine ⟨?_, ?_, ?_, ?_⟩
  · intro habs
    rw [snapshotPage, snapshot_page]
    rcases habs with habs | habs <;> rw [habs]
  · intro hnone
    rw [snapshotTable, snapshot_table, hnone]
    rfl
  · rcases hpage with h1 | ⟨v, h1⟩ <;> simp [h1]
  · rcases htable with h1 | ⟨v, h1⟩ <;> simp [h1]

/-- Witness for C10 on the concrete state: page 3 is unallocated so its
snapshot is null, an unknown name snapshots to null, and neither wrapper
throws. -/
theorem snapshot_absence_witness :
    snapshotPage stEx 3 = some none ∧
    snapshotTable stEx [120] = some none ∧
    snapshotPage stEx 3 ≠ none ∧
    snapshotTable stEx [120] ≠ none := by
  have h := snapshot_absence stEx 3 [120] (by decide)
  exact ⟨h.1 (by right; decide), h.2.1 (by decide), h.2.2.1, h.2.2.2⟩

end Wizalloc
